import Mathlib

/-!
Verification of the `inky_todo` ink! contract (src/lib.rs).

The contract state is embedded shallowly: the `u32` counter becomes a `Nat`
with explicit saturation at `2^32 - 1`, the `Mapping<u32, Todo>` becomes a
function `Nat → Option Todo`, and each message returns the new state together
with its `Result` and the list of events it emitted.
-/

namespace InkyTodoSpec

/-- Status of a todo item (`TodoStatus` in src/lib.rs). -/
inductive TodoStatus where
  | Pending
  | Completed
  | Cancelled
deriving DecidableEq, Repr

/-- A todo item (`Todo` in src/lib.rs). -/
structure Todo where
  id : Nat
  title : String
  description : String
  status : TodoStatus
deriving DecidableEq, Repr

/-- The three event shapes of the contract
(`TodoCreated`, `TodoUpdated`, `TodoDeleted` in src/lib.rs). -/
inductive Event where
  | TodoCreated (todo_id : Nat) (title : String)
  | TodoUpdated (todo_id : Nat) (new_status : TodoStatus)
  | TodoDeleted (todo_id : Nat) (title : String)
deriving DecidableEq, Repr

/-- The maximum value of a `u32`, at which `next_todo_id` saturates. -/
def U32_MAX : Nat := 2 ^ 32 - 1

/-- Contract storage (`InkyTodo` in src/lib.rs): the id counter and the
id-to-record mapping, the latter embedded as a function into `Option`. -/
structure InkyTodo where
  next_todo_id : Nat
  todos : Nat → Option Todo

/-- `Mapping::insert` on the embedded map. -/
def Mapping.insert (m : Nat → Option Todo) (k : Nat) (v : Todo) : Nat → Option Todo :=
  fun k' => if k' = k then some v else m k'

/-- `Mapping::remove` on the embedded map. -/
def Mapping.remove (m : Nat → Option Todo) (k : Nat) : Nat → Option Todo :=
  fun k' => if k' = k then none else m k'

/-- The constructor `InkyTodo::new`: counter starts at 1, empty mapping. -/
def InkyTodo.new : InkyTodo :=
  { next_todo_id := 1, todos := fun _ => none }

/-- `u32::saturating_add(1)` on the embedded counter. -/
def saturating_succ (n : Nat) : Nat := min (n + 1) U32_MAX

/-- `create_todo` (src/lib.rs lines 74-103): validates the title, stores a
`Pending` record under `next_todo_id`, advances the counter with saturation,
and emits `TodoCreated`. Returns the new state, the `Result`, and the
emitted events. -/
def create_todo (s : InkyTodo) (title description : String) :
    InkyTodo × Except String Nat × List Event :=
  let todo_id := s.next_todo_id
  if title.isEmpty then
    (s, Except.error "Title cannot be empty", [])
  else
    let todo : Todo :=
      { id := todo_id, title := title, description := description,
        status := TodoStatus.Pending }
    ({ next_todo_id := saturating_succ s.next_todo_id,
       todos := Mapping.insert s.todos todo_id todo },
     Except.ok todo_id,
     [Event.TodoCreated todo_id title])

/-- `get_todo` (src/lib.rs lines 107-109): pure lookup. -/
def get_todo (s : InkyTodo) (todo_id : Nat) : Option Todo :=
  s.todos todo_id

/-- `update_todo_status` (src/lib.rs lines 113-130): fetches the record
(failing with "Todo not found" if absent), replaces its status, re-inserts
it, and emits `TodoUpdated` with the caller-supplied status. -/
def update_todo_status (s : InkyTodo) (todo_id : Nat) (new_status : TodoStatus) :
    InkyTodo × Except String Unit × List Event :=
  match s.todos todo_id with
  | none => (s, Except.error "Todo not found", [])
  | some todo =>
    let todo' : Todo := { todo with status := new_status }
    ({ s with todos := Mapping.insert s.todos todo_id todo' },
     Except.ok (),
     [Event.TodoUpdated todo_id new_status])

/-- `delete_todo` (src/lib.rs lines 134-150): fetches the record (failing
with "Todo not found" if absent), removes it, and emits `TodoDeleted`
carrying the title the record held. -/
def delete_todo (s : InkyTodo) (todo_id : Nat) :
    InkyTodo × Except String Unit × List Event :=
  match s.todos todo_id with
  | none => (s, Except.error "Todo not found", [])
  | some todo =>
    ({ s with todos := Mapping.remove s.todos todo_id },
     Except.ok (),
     [Event.TodoDeleted todo_id todo.title])

/-- One external call to the contract. -/
inductive Op where
  | create (title description : String)
  | get (todo_id : Nat)
  | update (todo_id : Nat) (new_status : TodoStatus)
  | delete (todo_id : Nat)

/-- The state after executing one call (`get_todo` does not mutate). -/
def stepState (s : InkyTodo) : Op → InkyTodo
  | Op.create t d => (create_todo s t d).1
  | Op.get _ => s
  | Op.update id st => (update_todo_status s id st).1
  | Op.delete id => (delete_todo s id).1

/-- The state after executing a sequence of calls from `s`. -/
def runFrom (s : InkyTodo) : List Op → InkyTodo
  | [] => s
  | op :: ops => runFrom (stepState s op) ops

/-- The state after executing a sequence of calls from the freshly
constructed contract. -/
def run (ops : List Op) : InkyTodo :=
  runFrom InkyTodo.new ops

/-- The ids returned by the successful `create_todo` calls in a sequence,
in call order, starting from state `s`. -/
def createdIdsFrom (s : InkyTodo) : List Op → List Nat
  | [] => []
  | Op.create t d :: ops =>
    match (create_todo s t d).2.1 with
    | Except.ok id => id :: createdIdsFrom (stepState s (Op.create t d)) ops
    | Except.error _ => createdIdsFrom (stepState s (Op.create t d)) ops
  | op :: ops => createdIdsFrom (stepState s op) ops

/-- The ids returned by successful creates, running from the fresh contract. -/
def createdIds (ops : List Op) : List Nat :=
  createdIdsFrom InkyTodo.new ops

/-- Number of `create` calls in a sequence (successful or not). -/
def createCount : List Op → Nat
  | [] => 0
  | Op.create _ _ :: ops => createCount ops + 1
  | _ :: ops => createCount ops

/-- The intermediate points of one `create_todo` execution, in program
order: each point is the storage state at that point paired with the events
emitted so far.  The record is inserted (point 2) and the counter advanced
(point 3) before the `TodoCreated` event is emitted (point 4), mirroring the
statement order of src/lib.rs lines 90-102. -/
def create_todo_trace (s : InkyTodo) (title description : String) :
    List (InkyTodo × List Event) :=
  let todo_id := s.next_todo_id
  if title.isEmpty then
    [(s, [])]
  else
    let todo : Todo :=
      { id := todo_id, title := title, description := description,
        status := TodoStatus.Pending }
    let s1 : InkyTodo := { s with todos := Mapping.insert s.todos todo_id todo }
    let s2 : InkyTodo := { s1 with next_todo_id := saturating_succ s.next_todo_id }
    [(s, []), (s1, []), (s2, []), (s2, [Event.TodoCreated todo_id title])]

/-! ## Helper lemmas -/

theorem Mapping.insert_self (m : Nat → Option Todo) (k : Nat) (v : Todo) :
    Mapping.insert m k v k = some v := by
  simp [Mapping.insert]

theorem Mapping.insert_other (m : Nat → Option Todo) (k k' : Nat) (v : Todo)
    (h : k' ≠ k) : Mapping.insert m k v k' = m k' := by
  simp [Mapping.insert, h]

theorem Mapping.insert_insert (m : Nat → Option Todo) (k : Nat) (v w : Todo) :
    Mapping.insert (Mapping.insert m k v) k w = Mapping.insert m k w := by
  funext k'
  by_cases h : k' = k <;> simp [Mapping.insert, h]

theorem update_todo_status_next (s : InkyTodo) (id : Nat) (S : TodoStatus) :
    (update_todo_status s id S).1.next_todo_id = s.next_todo_id := by
  cases h : s.todos id <;> simp [update_todo_status, h]

theorem delete_todo_next (s : InkyTodo) (id : Nat) :
    (delete_todo s id).1.next_todo_id = s.next_todo_id := by
  cases h : s.todos id <;> simp [delete_todo, h]

/-! ## Claim theorems -/

/-- C1: for every store state, non-empty title `t` and description `d`,
`create_todo t d` succeeds returning the current `next_todo_id`, inserts at
that key a `Pending` record with that id, title `t`, description `d` (other
keys unchanged), advances `next_todo_id` by one saturating at the u32
maximum, and emits a `TodoCreated` event with the id and title. -/
theorem create_todo_spec (s : InkyTodo) (t d : String) (h : t.isEmpty = false) :
    (create_todo s t d).2.1 = Except.ok s.next_todo_id ∧
    (create_todo s t d).1.todos s.next_todo_id =
      some { id := s.next_todo_id, title := t, description := d,
             status := TodoStatus.Pending } ∧
    (∀ k, k ≠ s.next_todo_id → (create_todo s t d).1.todos k = s.todos k) ∧
    (create_todo s t d).1.next_todo_id = min (s.next_todo_id + 1) U32_MAX ∧
    (create_todo s t d).2.2 = [Event.TodoCreated s.next_todo_id t] := by
  refine ⟨?_, ?_, ?_, ?_, ?_⟩ <;>
    simp [create_todo, h, saturating_succ, Mapping.insert]
  intro k hk hk'
  exact absurd hk' hk

/-- Witness for C1 at a concrete input. -/
theorem create_todo_spec_witness :
    ("a".isEmpty = false) ∧
    (create_todo InkyTodo.new "a" "b").2.1 = Except.ok 1 :=
  ⟨by decide, (create_todo_spec InkyTodo.new "a" "b" (by decide)).1⟩

/-- C3: for every store state and description, `create_todo "" d` fails with
"Title cannot be empty", leaves the state (counter and mapping) unchanged,
and emits no event. -/
theorem create_todo_empty_title (s : InkyTodo) (d : String) :
    create_todo s "" d = (s, Except.error "Title cannot be empty", []) := rfl

/-- C4: for every state, key present in the mapping and status `S`,
`update_todo_status` succeeds; afterwards the record at that key keeps its
id, title and description but has status `S`; all other keys and
`next_todo_id` are unchanged; exactly one `TodoUpdated` event carrying the
id and `S` is emitted. -/
theorem update_todo_status_spec (s : InkyTodo) (id : Nat) (S : TodoStatus)
    (todo : Todo) (h : s.todos id = some todo) :
    (update_todo_status s id S).2.1 = Except.ok () ∧
    (update_todo_status s id S).1.todos id =
      some { id := todo.id, title := todo.title, description := todo.description,
             status := S } ∧
    (∀ k, k ≠ id → (update_todo_status s id S).1.todos k = s.todos k) ∧
    (update_todo_status s id S).1.next_todo_id = s.next_todo_id ∧
    (update_todo_status s id S).2.2 = [Event.TodoUpdated id S] := by
  refine ⟨?_, ?_, ?_, ?_, ?_⟩ <;>
    simp [update_todo_status, h, Mapping.insert]
  intro k hk hk'
  exact absurd hk' hk

/-- Witness for C4 at a concrete input. -/
theorem update_todo_status_spec_witness :
    ((create_todo InkyTodo.new "a" "b").1.todos 1 =
      some { id := 1, title := "a", description := "b",
             status := TodoStatus.Pending }) ∧
    (update_todo_status (create_todo InkyTodo.new "a" "b").1 1
        TodoStatus.Completed).2.1 = Except.ok () :=
  ⟨by decide,
   (update_todo_status_spec (create_todo InkyTodo.new "a" "b").1 1
      TodoStatus.Completed
      { id := 1, title := "a", description := "b", status := TodoStatus.Pending }
      (by decide)).1⟩

/-- C5: for every state and key absent from the mapping, both
`update_todo_status` and `delete_todo` fail with "Todo not found", leave the
whole state unchanged, and emit no event. -/
theorem not_found_spec (s : InkyTodo) (id : Nat) (S : TodoStatus)
    (h : s.todos id = none) :
    update_todo_status s id S = (s, Except.error "Todo not found", []) ∧
    delete_todo s id = (s, Except.error "Todo not found", []) := by
  constructor <;> simp [update_todo_status, delete_todo, h]

/-- Witness for C5 at a concrete input. -/
theorem not_found_spec_witness :
    (InkyTodo.new.todos 7 = none) ∧
    update_todo_status InkyTodo.new 7 TodoStatus.Completed =
      (InkyTodo.new, Except.error "Todo not found", []) :=
  ⟨rfl, (not_found_spec InkyTodo.new 7 TodoStatus.Completed rfl).1⟩

/-- C6: for every state and key present in the mapping, `delete_todo`
succeeds, removes the entry (a subsequent `get_todo` returns `none`), leaves
all other keys and `next_todo_id` unchanged, and emits a `TodoDeleted` event
carrying the title the record held. -/
theorem delete_todo_spec (s : InkyTodo) (id : Nat) (todo : Todo)
    (h : s.todos id = some todo) :
    (delete_todo s id).2.1 = Except.ok () ∧
    get_todo (delete_todo s id).1 id = none ∧
    (∀ k, k ≠ id → (delete_todo s id).1.todos k = s.todos k) ∧
    (delete_todo s id).1.next_todo_id = s.next_todo_id ∧
    (delete_todo s id).2.2 = [Event.TodoDeleted id todo.title] := by
  refine ⟨?_, ?_, ?_, ?_, ?_⟩ <;>
    simp [delete_todo, h, get_todo, Mapping.remove]
  intro k hk hk'
  exact absurd hk' hk

/-- Witness for C6 at a concrete input. -/
theorem delete_todo_spec_witness :
    ((create_todo InkyTodo.new "a" "b").1.todos 1 =
      some { id := 1, title := "a", description := "b",
             status := TodoStatus.Pending }) ∧
    (delete_todo (create_todo InkyTodo.new "a" "b").1 1).2.2 =
      [Event.TodoDeleted 1 "a"] :=
  ⟨by decide,
   (delete_todo_spec (create_todo InkyTodo.new "a" "b").1 1
      { id := 1, title := "a", description := "b", status := TodoStatus.Pending }
      (by decide)).2.2.2.2⟩

/-- C9: when `next_todo_id` has saturated at the u32 maximum, `create_todo`
with a non-empty title still succeeds, returns `U32_MAX`, overwrites any
record already stored under key `U32_MAX`, and leaves `next_todo_id` at
`U32_MAX`. -/
theorem create_todo_saturated (s : InkyTodo) (t d : String) (old : Todo)
    (h : t.isEmpty = false) (hsat : s.next_todo_id = U32_MAX)
    (hold : s.todos U32_MAX = some old) :
    (create_todo s t d).2.1 = Except.ok U32_MAX ∧
    (create_todo s t d).1.todos U32_MAX =
      some { id := U32_MAX, title := t, description := d,
             status := TodoStatus.Pending } ∧
    (create_todo s t d).1.next_todo_id = U32_MAX := by
  refine ⟨?_, ?_, ?_⟩ <;>
    simp [create_todo, h, hsat, saturating_succ, Mapping.insert]

/-- Witness for C9 at a concrete input. -/
theorem create_todo_saturated_witness :
    (("t".isEmpty = false) ∧
      ({ next_todo_id := U32_MAX,
         todos := Mapping.insert InkyTodo.new.todos U32_MAX
           { id := U32_MAX, title := "o", description := "o",
             status := TodoStatus.Pending } } : InkyTodo).next_todo_id = U32_MAX) ∧
    (create_todo
        { next_todo_id := U32_MAX,
          todos := Mapping.insert InkyTodo.new.todos U32_MAX
            { id := U32_MAX, title := "o", description := "o",
              status := TodoStatus.Pending } } "t" "d").2.1 =
      Except.ok U32_MAX :=
  ⟨⟨by decide, rfl⟩,
   (create_todo_saturated _ "t" "d"
      { id := U32_MAX, title := "o", description := "o",
        status := TodoStatus.Pending }
      (by decide) rfl (by simp [Mapping.insert])).1⟩

/-- C10: `update_todo_status` is idempotent on the store state and on its
returned result: applying it twice with the same id and status leaves the
store exactly as one application, and the second call returns the same
result as the first. -/
theorem update_todo_status_idem (s : InkyTodo) (id : Nat) (S : TodoStatus) :
    (update_todo_status (update_todo_status s id S).1 id S).1 =
      (update_todo_status s id S).1 ∧
    (update_todo_status (update_todo_status s id S).1 id S).2.1 =
      (update_todo_status s id S).2.1 := by
  cases h : s.todos id with
  | none => simp [update_todo_status, h]
  | some todo =>
    have h1 : (update_todo_status s id S).1 =
        { s with todos := Mapping.insert s.todos id { todo with status := S } } := by
      simp [update_todo_status, h]
    have h2 : Mapping.insert s.todos id { todo with status := S } id =
        some { todo with status := S } := by
      simp [Mapping.insert]
    rw [h1]
    simp [update_todo_status, h, h2, Mapping.insert_insert]

/-! ## The key-equals-id invariant (C7) -/

theorem keysMatch_stepState (s : InkyTodo) (op : Op)
    (h : ∀ k todo, s.todos k = some todo → todo.id = k) :
    ∀ k todo, (stepState s op).todos k = some todo → todo.id = k := by
  cases op with
  | create t d =>
    intro k todo hk
    cases ht : t.isEmpty with
    | true =>
      simp [stepState, create_todo, ht] at hk
      exact h k todo hk
    | false =>
      simp only [stepState] at hk
      simp [create_todo, ht] at hk
      by_cases hkid : k = s.next_todo_id
      · subst hkid
        rw [Mapping.insert_self] at hk
        cases hk
        rfl
      · rw [Mapping.insert_other _ _ _ _ hkid] at hk
        exact h k todo hk
  | get id => exact h
  | update id S =>
    cases hid : s.todos id with
    | none => simpa [stepState, update_todo_status, hid] using h
    | some todo0 =>
      simp only [stepState, update_todo_status, hid]
      intro k todo hk
      by_cases hkid : k = id
      · subst hkid
        rw [Mapping.insert_self] at hk
        cases hk
        exact h k todo0 hid
      · rw [Mapping.insert_other _ _ _ _ hkid] at hk
        exact h k todo hk
  | delete id =>
    cases hid : s.todos id with
    | none => simpa [stepState, delete_todo, hid] using h
    | some todo0 =>
      simp only [stepState, delete_todo, hid]
      intro k todo hk
      by_cases hkid : k = id
      · subst hkid
        simp [Mapping.remove] at hk
      · simp only [Mapping.remove, hkid, if_false] at hk
        exact h k todo hk

theorem keysMatch_runFrom (ops : List Op) : ∀ s : InkyTodo,
    (∀ k todo, s.todos k = some todo → todo.id = k) →
    ∀ k todo, (runFrom s ops).todos k = some todo → todo.id = k := by
  induction ops with
  | nil => intro s h; exact h
  | cons op ops ih =>
    intro s h
    exact ih (stepState s op) (keysMatch_stepState s op h)

/-- C7: in every state reachable from the fresh contract by a sequence of
calls, every key present in the mapping equals the `id` field of the record
stored under it. -/
theorem run_keys_match (ops : List Op) (k : Nat) (todo : Todo)
    (h : (run ops).todos k = some todo) : todo.id = k :=
  keysMatch_runFrom ops InkyTodo.new (fun _ _ hk => by simp [InkyTodo.new] at hk)
    k todo h

/-- Witness for C7 at a concrete input. -/
theorem run_keys_match_witness :
    ((run [Op.create "a" "b"]).todos 1 =
      some { id := 1, title := "a", description := "b",
             status := TodoStatus.Pending }) ∧
    ({ id := 1, title := "a", description := "b",
       status := TodoStatus.Pending } : Todo).id = 1 :=
  ⟨by decide,
   run_keys_match [Op.create "a" "b"] 1
     { id := 1, title := "a", description := "b", status := TodoStatus.Pending }
     (by decide)⟩

/-! ## Ordering of insert and emit inside create_todo (C8) -/

/-- C8: at every intermediate point of a `create_todo` execution, if a
`TodoCreated` event has already been emitted at that point, then `get_todo`
on the storage state at that point finds a record under the event's id: the
record is durably stored before the event is emitted. -/
theorem create_todo_insert_before_emit (s : InkyTodo) (t d : String)
    (p : InkyTodo × List Event) (hp : p ∈ create_todo_trace s t d)
    (id : Nat) (ttl : String) (he : Event.TodoCreated id ttl ∈ p.2) :
    (get_todo p.1 id).isSome = true := by
  obtain ⟨st, evs⟩ := p
  cases ht : t.isEmpty with
  | true =>
    simp [create_todo_trace, ht] at hp
    obtain ⟨-, rfl⟩ := hp
    simp at he
  | false =>
    simp [create_todo_trace, ht] at hp
    rcases hp with ⟨rfl, rfl⟩ | ⟨rfl, rfl⟩ | ⟨rfl, rfl⟩ | ⟨rfl, rfl⟩ <;>
      simp at he
    obtain ⟨rfl, -⟩ := he
    simp [get_todo, Mapping.insert]

/-- Witness for C8 at a concrete input: the final point of the trace of
`create_todo InkyTodo.new "a" "b"`, where the event has been emitted. -/
theorem create_todo_insert_before_emit_witness :
    (({ next_todo_id := saturating_succ 1,
        todos := Mapping.insert InkyTodo.new.todos 1
          { id := 1, title := "a", description := "b",
            status := TodoStatus.Pending } },
      [Event.TodoCreated 1 "a"]) ∈ create_todo_trace InkyTodo.new "a" "b") ∧
    (get_todo
      { next_todo_id := saturating_succ 1,
        todos := Mapping.insert InkyTodo.new.todos 1
          { id := 1, title := "a", description := "b",
            status := TodoStatus.Pending } } 1).isSome = true :=
  ⟨List.Mem.tail _ (List.Mem.tail _ (List.Mem.tail _ (List.Mem.head _))),
   create_todo_insert_before_emit InkyTodo.new "a" "b" _
     (List.Mem.tail _ (List.Mem.tail _ (List.Mem.tail _ (List.Mem.head _))))
     1 "a" (List.Mem.head _)⟩

/-! ## Monotonicity of issued ids (C2) -/

theorem createdIdsFrom_create_fail (s : InkyTodo) (t d : String) (ops : List Op)
    (ht : t.isEmpty = true) :
    createdIdsFrom s (Op.create t d :: ops) = createdIdsFrom s ops := by
  have h1 : create_todo s t d = (s, Except.error "Title cannot be empty", []) := by
    simp [create_todo, ht]
  simp [createdIdsFrom, h1, stepState]

theorem createdIdsFrom_create_ok (s : InkyTodo) (t d : String) (ops : List Op)
    (ht : t.isEmpty = false) :
    createdIdsFrom s (Op.create t d :: ops) =
      s.next_todo_id :: createdIdsFrom (create_todo s t d).1 ops := by
  have h1 : (create_todo s t d).2.1 = Except.ok s.next_todo_id := by
    simp [create_todo, ht]
  simp [createdIdsFrom, h1, stepState]

theorem created_ids_bounded (ops : List Op) : ∀ s : InkyTodo,
    s.next_todo_id + createCount ops ≤ U32_MAX →
    (s.next_todo_id ≤ (runFrom s ops).next_todo_id ∧
      (runFrom s ops).next_todo_id ≤ s.next_todo_id + createCount ops) ∧
    (∀ id ∈ createdIdsFrom s ops,
        s.next_todo_id ≤ id ∧ id < (runFrom s ops).next_todo_id) ∧
    List.Pairwise (fun a b => a < b) (createdIdsFrom s ops) := by
  induction ops with
  | nil =>
    intro s hs
    exact ⟨⟨le_refl _, by simp [runFrom, createCount]⟩,
      by simp [createdIdsFrom], by simp [createdIdsFrom]⟩
  | cons op ops ih =>
    intro s hs
    have hrun : runFrom s (op :: ops) = runFrom (stepState s op) ops := rfl
    cases op with
    | create t d =>
      have hcnt : createCount (Op.create t d :: ops) = createCount ops + 1 := rfl
      rw [hcnt] at hs ⊢
      cases ht : t.isEmpty with
      | true =>
        have hstep : stepState s (Op.create t d) = s := by
          simp [stepState, create_todo, ht]
        have hids : createdIdsFrom s (Op.create t d :: ops) =
            createdIdsFrom s ops := createdIdsFrom_create_fail s t d ops ht
        obtain ⟨⟨hm, hb⟩, hin, hpw⟩ := ih s (by omega)
        rw [hrun, hstep, hids]
        exact ⟨⟨hm, by omega⟩, hin, hpw⟩
      | false =>
        have hsat : saturating_succ s.next_todo_id = s.next_todo_id + 1 :=
          Nat.min_eq_left (by omega)
        have hstep : (stepState s (Op.create t d)).next_todo_id =
            s.next_todo_id + 1 := by
          simp [stepState, create_todo, ht]
          exact hsat
        obtain ⟨⟨hm, hb⟩, hin, hpw⟩ :=
          ih (stepState s (Op.create t d)) (by rw [hstep]; omega)
        rw [hstep] at hm hb hin
        have hids : createdIdsFrom s (Op.create t d :: ops) =
            s.next_todo_id :: createdIdsFrom (stepState s (Op.create t d)) ops :=
          createdIdsFrom_create_ok s t d ops ht
        rw [hrun, hids]
        refine ⟨⟨by omega, by omega⟩, ?_, ?_⟩
        · intro id hid
          rcases List.mem_cons.mp hid with rfl | hid
          · exact ⟨le_refl _, by omega⟩
          · obtain ⟨h1, h2⟩ := hin id hid
            exact ⟨by omega, h2⟩
        · exact List.pairwise_cons.mpr
            ⟨fun id' hid' => by have := (hin id' hid').1; omega, hpw⟩
    | get id =>
      exact ih s hs
    | update id S =>
      have hnext : (stepState s (Op.update id S)).next_todo_id =
          s.next_todo_id := update_todo_status_next s id S
      obtain ⟨⟨hm, hb⟩, hin, hpw⟩ :=
        ih (stepState s (Op.update id S)) (by rw [hnext]; exact hs)
      rw [hnext] at hm hb hin
      exact ⟨⟨hm, hb⟩, hin, hpw⟩
    | delete id =>
      have hnext : (stepState s (Op.delete id)).next_todo_id =
          s.next_todo_id := delete_todo_next s id
      obtain ⟨⟨hm, hb⟩, hin, hpw⟩ :=
        ih (stepState s (Op.delete id)) (by rw [hnext]; exact hs)
      rw [hnext] at hm hb hin
      exact ⟨⟨hm, hb⟩, hin, hpw⟩

/-- C2 (amended): for every sequence of operations from the fresh contract
containing at most `2^32 - 2` create calls — that is, as long as
`next_todo_id` cannot saturate — the ids returned by successful creates are
strictly increasing (hence never repeat), even interleaved with deletes, and
`next_todo_id` stays strictly greater than every id issued.  Without that
bound the property fails once the counter saturates (see the
counterexample). -/
theorem created_ids_strict_mono (ops : List Op)
    (h : createCount ops ≤ 2 ^ 32 - 2) :
    List.Pairwise (fun a b => a < b) (createdIds ops) ∧
    ∀ id ∈ createdIds ops, id < (run ops).next_todo_id := by
  have h32 : (2 : Nat) ^ 32 = 4294967296 := by norm_num
  have hbound : InkyTodo.new.next_todo_id + createCount ops ≤ U32_MAX := by
    have hn : InkyTodo.new.next_todo_id = 1 := rfl
    rw [hn, U32_MAX, h32]
    rw [h32] at h
    omega
  obtain ⟨-, hin, hpw⟩ := created_ids_bounded ops InkyTodo.new hbound
  exact ⟨hpw, fun id hid => (hin id hid).2⟩

/-- Witness for C2 (amended) at a concrete input. -/
theorem created_ids_strict_mono_witness :
    (createCount [Op.create "a" "", Op.delete 1, Op.create "b" ""] ≤
      2 ^ 32 - 2) ∧
    (List.Pairwise (fun a b => a < b)
        (createdIds [Op.create "a" "", Op.delete 1, Op.create "b" ""]) ∧
      ∀ id ∈ createdIds [Op.create "a" "", Op.delete 1, Op.create "b" ""],
        id < (run [Op.create "a" "", Op.delete 1, Op.create "b" ""]).next_todo_id) :=
  ⟨by norm_num [createCount],
   created_ids_strict_mono [Op.create "a" "", Op.delete 1, Op.create "b" ""]
     (by norm_num [createCount])⟩

theorem createdIdsFrom_append (l1 l2 : List Op) : ∀ s : InkyTodo,
    createdIdsFrom s (l1 ++ l2) =
      createdIdsFrom s l1 ++ createdIdsFrom (runFrom s l1) l2 := by
  induction l1 with
  | nil => intro s; rfl
  | cons op l1 ih =>
    intro s
    cases op with
    | create t d =>
      cases ht : t.isEmpty with
      | true =>
        have hstep : stepState s (Op.create t d) = s := by
          simp [stepState, create_todo, ht]
        have hr : runFrom s (Op.create t d :: l1) = runFrom s l1 := by
          rw [show runFrom s (Op.create t d :: l1) =
            runFrom (stepState s (Op.create t d)) l1 from rfl, hstep]
        rw [List.cons_append, createdIdsFrom_create_fail _ _ _ _ ht,
          createdIdsFrom_create_fail _ _ _ _ ht, hr, ih s]
      | false =>
        have hr : runFrom s (Op.create t d :: l1) =
            runFrom (create_todo s t d).1 l1 := rfl
        rw [List.cons_append, createdIdsFrom_create_ok _ _ _ _ ht,
          createdIdsFrom_create_ok _ _ _ _ ht, hr, ih, List.cons_append]
    | get id => exact ih s
    | update id S => exact ih (update_todo_status s id S).1
    | delete id => exact ih (delete_todo s id).1

theorem runFrom_replicate_create (t d : String) (ht : t.isEmpty = false) :
    ∀ (n : Nat) (s : InkyTodo), s.next_todo_id ≤ U32_MAX →
      (runFrom s (List.replicate n (Op.create t d))).next_todo_id =
        min (s.next_todo_id + n) U32_MAX := by
  intro n
  induction n with
  | zero =>
    intro s hs
    simpa [runFrom] using (Nat.min_eq_left hs).symm
  | succ n ih =>
    intro s hs
    rw [List.replicate_succ]
    have hstep : (stepState s (Op.create t d)).next_todo_id =
        min (s.next_todo_id + 1) U32_MAX := by
      simp [stepState, create_todo, ht, saturating_succ]
    have hle : (stepState s (Op.create t d)).next_todo_id ≤ U32_MAX := by
      rw [hstep]; omega
    rw [show runFrom s (Op.create t d :: List.replicate n (Op.create t d)) =
      runFrom (stepState s (Op.create t d)) (List.replicate n (Op.create t d))
      from rfl, ih _ hle, hstep]
    omega

theorem createdIdsFrom_replicate_saturated (t d : String)
    (ht : t.isEmpty = false) :
    ∀ (n : Nat) (s : InkyTodo), s.next_todo_id = U32_MAX →
      createdIdsFrom s (List.replicate n (Op.create t d)) =
        List.replicate n U32_MAX := by
  intro n
  induction n with
  | zero => intro s hs; rfl
  | succ n ih =>
    intro s hs
    rw [List.replicate_succ, createdIdsFrom_create_ok _ _ _ _ ht]
    have hstep : (create_todo s t d).1.next_todo_id = U32_MAX := by
      simp [create_todo, ht, saturating_succ, hs]
    rw [hs, ih _ hstep, List.replicate_succ]

/-- Counterexample to C2 as stated: over the sequence of `2^32` creates
(with non-empty titles) from the fresh contract, the returned ids are not
strictly increasing — once `next_todo_id` saturates at `U32_MAX`, create
keeps returning `U32_MAX`, so the same id is issued repeatedly. -/
theorem created_ids_repeat_counterexample :
    ¬ List.Pairwise (fun a b => a < b)
        (createdIds (List.replicate (2 ^ 32) (Op.create "a" "x"))) := by
  intro hpw
  have ht : ("a").isEmpty = false := by decide
  have h32 : (2 : Nat) ^ 32 = 4294967296 := by norm_num
  have hsplit : List.replicate (2 ^ 32) (Op.create "a" "x") =
      List.replicate (2 ^ 32 - 2) (Op.create "a" "x") ++
        List.replicate 2 (Op.create "a" "x") := by
    rw [← List.replicate_add]
    norm_num
  have hnewle : InkyTodo.new.next_todo_id ≤ U32_MAX := by
    rw [show InkyTodo.new.next_todo_id = 1 from rfl, U32_MAX, h32]
    omega
  have hsat : (runFrom InkyTodo.new
      (List.replicate (2 ^ 32 - 2) (Op.create "a" "x"))).next_todo_id =
      U32_MAX := by
    rw [runFrom_replicate_create "a" "x" ht _ _ hnewle,
      show InkyTodo.new.next_todo_id = 1 from rfl, U32_MAX, h32]
    omega
  rw [createdIds, hsplit, createdIdsFrom_append,
    createdIdsFrom_replicate_saturated "a" "x" ht 2 _ hsat] at hpw
  have htail := (List.pairwise_append.mp hpw).2.1
  rw [show List.replicate 2 U32_MAX = [U32_MAX, U32_MAX] from rfl] at htail
  rcases List.pairwise_cons.mp htail with ⟨hlt, -⟩
  exact lt_irrefl _ (hlt _ (List.mem_singleton.mpr rfl))

end InkyTodoSpec
